import Mathlib

/-!
Shallow embedding of the rrweb-player `Controller` component
(`src/Controller.svelte`) and proofs about it.

Numbers that the JavaScript source manipulates are modelled as exact
rationals; where the source can produce the IEEE special values
(division by zero in the marker-position calculation) we use an explicit
JavaScript-number model `JSVal` with `nan`, `inf` and `ninf`.

The component itself is modelled as a state machine `CState`: the local
component variables (`currentTime`, `timer`, `playerState`, `speedState`,
`finished`, `speed`, `skipInactive`) together with the environment pieces
the proofs need — the set of animation-frame callbacks currently scheduled
in the browser (`pending`), a fresh-id counter for `requestAnimationFrame`
(`nextId`), the metadata duration (`totalTime`), and the trace of calls the
component has issued on the external replayer (`calls`).
-/

namespace Controller

/-- JavaScript number model: an exact rational or one of the IEEE special
values produced by the arithmetic in the source. -/
inductive JSVal
| num (q : ℚ)
| nan
| inf
| ninf
deriving DecidableEq

/-- JavaScript subtraction (`a - b`). -/
def jsSub : JSVal → JSVal → JSVal
| JSVal.num a, JSVal.num b => JSVal.num (a - b)
| JSVal.num _, JSVal.inf => JSVal.ninf
| JSVal.num _, JSVal.ninf => JSVal.inf
| JSVal.inf, JSVal.num _ => JSVal.inf
| JSVal.ninf, JSVal.num _ => JSVal.ninf
| JSVal.inf, JSVal.ninf => JSVal.inf
| JSVal.ninf, JSVal.inf => JSVal.ninf
| _, _ => JSVal.nan

/-- JavaScript multiplication (`a * b`). -/
def jsMul : JSVal → JSVal → JSVal
| JSVal.num a, JSVal.num b => JSVal.num (a * b)
| JSVal.num a, JSVal.inf => if a > 0 then JSVal.inf else if a < 0 then JSVal.ninf else JSVal.nan
| JSVal.num a, JSVal.ninf => if a > 0 then JSVal.ninf else if a < 0 then JSVal.inf else JSVal.nan
| JSVal.inf, JSVal.num b => if b > 0 then JSVal.inf else if b < 0 then JSVal.ninf else JSVal.nan
| JSVal.ninf, JSVal.num b => if b > 0 then JSVal.ninf else if b < 0 then JSVal.inf else JSVal.nan
| JSVal.inf, JSVal.inf => JSVal.inf
| JSVal.inf, JSVal.ninf => JSVal.ninf
| JSVal.ninf, JSVal.inf => JSVal.ninf
| JSVal.ninf, JSVal.ninf => JSVal.inf
| _, _ => JSVal.nan

/-- JavaScript division (`a / b`); division of a nonzero finite number by
zero yields a signed infinity, `0 / 0` yields `NaN`. -/
def jsDiv : JSVal → JSVal → JSVal
| JSVal.num a, JSVal.num b =>
    if b ≠ 0 then JSVal.num (a / b)
    else if a > 0 then JSVal.inf
    else if a < 0 then JSVal.ninf
    else JSVal.nan
| JSVal.num _, JSVal.inf => JSVal.num 0
| JSVal.num _, JSVal.ninf => JSVal.num 0
| JSVal.inf, JSVal.num b => if b < 0 then JSVal.ninf else JSVal.inf
| JSVal.ninf, JSVal.num b => if b < 0 then JSVal.inf else JSVal.ninf
| _, _ => JSVal.nan

/-- JavaScript `<` comparison; any comparison with `NaN` is false. -/
def jsLt : JSVal → JSVal → Bool
| JSVal.num a, JSVal.num b => a < b
| JSVal.num _, JSVal.inf => true
| JSVal.ninf, JSVal.num _ => true
| JSVal.ninf, JSVal.inf => true
| _, _ => false

/-- Two-digit zero padding used when printing the fractional part. -/
def pad2 (n : ℕ) : String :=
  if n < 10 then "0" ++ toString n else toString n

/-- `Number.prototype.toFixed(2)` on an exact rational, per the ECMAScript
algorithm: the sign is taken first, then the magnitude is rounded to the
nearest multiple of 1/100 with ties going to the larger numerator.  For a
nonnegative reduced fraction `a = a.num / a.den` that integer numerator is
`⌊100·a + 1/2⌋ = (200·a.num + a.den) / (2·a.den)` (plain integer division,
all quantities nonnegative). -/
def toFixed2 (q : ℚ) : String :=
  let a : ℚ := if q < 0 then -q else q
  let m : ℕ := ((200 * a.num + (a.den : ℤ)) / (2 * (a.den : ℤ))).toNat
  (if q < 0 then "-" else "") ++ toString (m / 100) ++ "." ++ pad2 (m % 100)

/-- `toFixed(2)` lifted to the JavaScript number model. -/
def jsToFixed2 : JSVal → String
| JSVal.num q => toFixed2 q
| JSVal.nan => "NaN"
| JSVal.inf => "Infinity"
| JSVal.ninf => "-Infinity"

/-- The `position` helper of `customEvents` in `Controller.svelte`:
`100 - ((endTime - tagTime) / (endTime - startTime)) * 100`, `toFixed(2)`. -/
def position (startTime endTime tagTime : JSVal) : String :=
  let sessionDuration := jsSub endTime startTime
  let eventDuration := jsSub endTime tagTime
  let eventPosition :=
    jsSub (JSVal.num 100) (jsMul (jsDiv eventDuration sessionDuration) (JSVal.num 100))
  jsToFixed2 eventPosition

/-- The rrweb event kinds, as in the `EventType` enum. -/
inductive EventType
| domContentLoaded
| load
| fullSnapshot
| incrementalSnapshot
| meta
| custom
deriving DecidableEq

/-- One entry of the replayer event log: a type tag, a timestamp, and the
`data.tag` label (meaningful for custom events). -/
structure REvent where
  type : EventType
  timestamp : ℚ
  dataTag : String
deriving DecidableEq

/-- The derived marker record built by `customEvents`. -/
structure CustomEvent where
  name : String
  background : String
  position : String
deriving DecidableEq

/-- Record lookup `tags[k]`. -/
def lookupTag (tags : List (String × String)) (k : String) : Option String :=
  (tags.find? (fun p => p.1 = k)).map (fun p => p.2)

/-- The JavaScript `v || d` fallback on strings: `undefined` and the empty
string are falsy. -/
def jsOrDefault (v : Option String) (d : String) : String :=
  match v with
  | some s => if s = "" then d else s
  | none => d

/-- The `customEvents` reactive computation: for a nonempty log, take the
first and last timestamps and map every custom event to a marker, in log
order.  On an empty log the source dereferences `events[0].timestamp` and
throws, modelled as `none`. -/
def customEvents (events : List REvent) (tags : List (String × String)) :
    Option (List CustomEvent) :=
  match events with
  | [] => none
  | e0 :: rest =>
    let start := e0.timestamp
    let endT := ((e0 :: rest).getLast (List.cons_ne_nil e0 rest)).timestamp
    some ((e0 :: rest).filterMap (fun e =>
      if e.type = EventType.custom then
        some { name := e.dataTag
               background := jsOrDefault (lookupTag tags e.dataTag) "rgb(73, 80, 246)"
               position := position (JSVal.num start) (JSVal.num endT) (JSVal.num e.timestamp) ++ "%" }
      else none))

/-- The local `playerState` variable: `"playing" | "paused" | "live"`. -/
inductive PlayerState
| playing
| paused
| live
deriving DecidableEq

/-- The local `speedState` variable: `"normal" | "skipping"`. -/
inductive SpeedState
| normal
| skipping
deriving DecidableEq

/-- Calls the component issues on the external replayer. -/
inductive EngineCall
| play (offset : Option ℚ)
| pause
| setSpeedConfig (v : ℚ)
| setSkipConfig (b : Bool)
deriving DecidableEq

/-- Component state: the local variables of `Controller.svelte` plus the
browser animation-frame queue and the trace of replayer calls. -/
structure CState where
  currentTime : ℚ
  timer : Option ℕ
  playerState : PlayerState
  speedState : SpeedState
  finished : Bool
  speed : ℚ
  skipInactive : Bool
  totalTime : ℚ
  pending : List ℕ
  nextId : ℕ
  calls : List EngineCall
deriving DecidableEq

/-- Append one call on the external replayer to the trace. -/
def emit (c : EngineCall) (s : CState) : CState :=
  { s with calls := s.calls ++ [c] }

/-- `stopTimer`: `if (timer) { cancelAnimationFrame(timer); timer = null; }`.
`cancelAnimationFrame` removes the callback from the browser queue. -/
def stopTimer (s : CState) : CState :=
  match s.timer with
  | some id => { s with pending := s.pending.erase id, timer := none }
  | none => s

/-- `loopTimer`: first `stopTimer()`, then schedule the `update` callback
with `requestAnimationFrame` and remember its id in `timer`. -/
def loopTimer (s : CState) : CState :=
  let s1 := stopTimer s
  { s1 with
    pending := s1.pending ++ [s1.nextId]
    timer := some s1.nextId
    nextId := s1.nextId + 1 }

/-- The browser fires a scheduled `update` callback with id `id`, with the
replayer reporting `engineTime` as `getCurrentTime()`: store it in
`currentTime` and re-arm the frame request while `currentTime < meta.totalTime`.
A cancelled or unknown id fires nothing. -/
def frameFire (id : ℕ) (engineTime : ℚ) (s : CState) : CState :=
  if id ∈ s.pending then
    let s1 := { s with pending := s.pending.erase id, currentTime := engineTime }
    if engineTime < s1.totalTime then
      { s1 with
        pending := s1.pending ++ [s1.nextId]
        timer := some s1.nextId
        nextId := s1.nextId + 1 }
    else s1
  else s

/-- `play()`: a no-op unless `playerState === "paused"`; when `finished`
restart the replayer from the beginning and clear the flag, otherwise
resume from `currentTime`. -/
def play (s : CState) : CState :=
  if s.playerState ≠ PlayerState.paused then s
  else if s.finished then { emit (EngineCall.play none) s with finished := false }
  else emit (EngineCall.play (some s.currentTime)) s

/-- `pause()`: a no-op unless `playerState === "playing"`. -/
def pause (s : CState) : CState :=
  if s.playerState ≠ PlayerState.playing then s
  else emit EngineCall.pause s

/-- `toggle()`: dispatch on `playerState`; anything other than playing or
paused falls through the `default` branch. -/
def toggle (s : CState) : CState :=
  match s.playerState with
  | PlayerState.playing => pause s
  | PlayerState.paused => play s
  | PlayerState.live => s

/-- `goto(timeOffset)`: set the local cursor, then `replayer.pause()`,
`replayer.play(timeOffset)`, and a final `replayer.pause()` exactly when the
component was not in the playing state before the call. -/
def goto (timeOffset : ℚ) (s : CState) : CState :=
  let s1 := { s with currentTime := timeOffset }
  let isPlaying := s.playerState = PlayerState.playing
  let s2 := emit EngineCall.pause s1
  let s3 := emit (EngineCall.play (some timeOffset)) s2
  if isPlaying then s3 else emit EngineCall.pause s3

/-- `setSpeed(newSpeed)`: remember whether we were playing, store the new
speed, bracket the engine reconfiguration with pause/resume when playing. -/
def setSpeed (newSpeed : ℚ) (s : CState) : CState :=
  let needFreeze := s.playerState = PlayerState.playing
  let s1 := { s with speed := newSpeed }
  let s2 := if needFreeze then emit EngineCall.pause s1 else s1
  let s3 := emit (EngineCall.setSpeedConfig s2.speed) s2
  if needFreeze then emit (EngineCall.play (some s3.currentTime)) s3 else s3

/-- `toggleSkipInactive()`: flip the local boolean. -/
def toggleSkipInactive (s : CState) : CState :=
  { s with skipInactive := !s.skipInactive }

/-- The `afterUpdate` hook: push `skipInactive` to the replayer
configuration when it differs from the engine-side value. -/
def afterUpdateStep (engineSkip : Bool) (s : CState) : CState :=
  if s.skipInactive ≠ engineSkip then emit (EngineCall.setSkipConfig s.skipInactive) s else s

/-- `handleProgressClick(event)`: ignored while skipping; otherwise divide
the horizontal offset by the track width, clamp the fraction into `[0, 1]`
(JavaScript comparisons, so a `NaN` fraction passes both tests unchanged),
scale by `meta.totalTime` and `goto` there.  A `NaN` time offset is not
representable in the rational state, hence the `Option`; it only arises
for `clientX - rectLeft = 0` on a zero-width track. -/
def handleProgressClick (clientX rectLeft rectWidth : ℚ) (s : CState) : Option CState :=
  if s.speedState = SpeedState.skipping then some s
  else
    let x := clientX - rectLeft
    let percent0 := jsDiv (JSVal.num x) (JSVal.num rectWidth)
    let percent :=
      if jsLt percent0 (JSVal.num 0) then JSVal.num 0
      else if jsLt (JSVal.num 1) percent0 then JSVal.num 1
      else percent0
    match jsMul (JSVal.num s.totalTime) percent with
    | JSVal.num t => some (goto t s)
    | _ => none

/-- The player half of the `state-change` handler: update `playerState`
only on a value change, then start the timer loop on `playing` and stop it
on `paused`. -/
def playerPart (player : Option PlayerState) (s : CState) : CState :=
  match player with
  | some p =>
    if s.playerState ≠ p then
      let s0 := { s with playerState := p }
      match p with
      | PlayerState.playing => loopTimer s0
      | PlayerState.paused => stopTimer s0
      | PlayerState.live => s0
    else s
  | none => s

/-- The speed half of the `state-change` handler: update `speedState` only
on a value change. -/
def speedPart (speed : Option SpeedState) (s : CState) : CState :=
  match speed with
  | some sp => if s.speedState ≠ sp then { s with speedState := sp } else s
  | none => s

/-- The `state-change` subscription handler: the player update followed by
the speed update. -/
def stateChange (player : Option PlayerState) (speed : Option SpeedState) (s : CState) : CState :=
  speedPart speed (playerPart player s)

/-- The `finish` subscription handler: set the `finished` flag. -/
def finishEv (s : CState) : CState :=
  { s with finished := true }

/-- `onDestroy`: pause the replayer and stop the timer. -/
def destroy (s : CState) : CState :=
  stopTimer (emit EngineCall.pause s)

/-- The component state right after `onMount`: local variables at their
initial values, `playerState`/`speedState` read from the engine, and a
`replayer.play()` call already issued when `autoPlay` is set. -/
def mountState (ps : PlayerState) (ss : SpeedState) (total : ℚ) (autoPlay : Bool)
    (sp : ℚ) (ski : Bool) : CState :=
  { currentTime := 0
    timer := none
    playerState := ps
    speedState := ss
    finished := false
    speed := sp
    skipInactive := ski
    totalTime := total
    pending := []
    nextId := 1
    calls := if autoPlay then [EngineCall.play none] else [] }

/-- States reachable from mount through the notifications the component
subscribes to, the browser firing scheduled frames, the exported commands,
the render hook, and teardown.  A pointer click carries a positive track
width: an element with an empty hit area cannot be the target of a click. -/
inductive Reachable : CState → Prop
| mount : ∀ ps ss total ap sp ski, Reachable (mountState ps ss total ap sp ski)
| stateChangeR : ∀ p sp s, Reachable s → Reachable (stateChange p sp s)
| finishR : ∀ s, Reachable s → Reachable (finishEv s)
| frameR : ∀ id t s, Reachable s → Reachable (frameFire id t s)
| toggleR : ∀ s, Reachable s → Reachable (toggle s)
| playR : ∀ s, Reachable s → Reachable (play s)
| pauseR : ∀ s, Reachable s → Reachable (pause s)
| gotoR : ∀ t s, Reachable s → Reachable (goto t s)
| setSpeedR : ∀ v s, Reachable s → Reachable (setSpeed v s)
| toggleSkipR : ∀ s, Reachable s → Reachable (toggleSkipInactive s)
| afterUpdateR : ∀ b s, Reachable s → Reachable (afterUpdateStep b s)
| clickR : ∀ x l w s, Reachable s → 0 < w → Reachable ((handleProgressClick x l w s).getD s)
| destroyR : ∀ s, Reachable s → Reachable (destroy s)

/-- How the engine playback status responds to the issued calls: any `play`
leaves it playing, any `pause` leaves it paused, configuration calls leave
it alone. -/
def enginePlaysAfter (b : Bool) (cs : List EngineCall) : Bool :=
  cs.foldl
    (fun st c =>
      match c with
      | EngineCall.play _ => true
      | EngineCall.pause => false
      | _ => st) b

/-- The reactive `percentage` computation: `Math.min(1, currentTime / meta.totalTime)`
(the dispatched progress fraction; the rendered string is `100 * percent` with `%`). -/
def progressPercent (currentTime totalTime : ℚ) : ℚ :=
  min 1 (currentTime / totalTime)

/-- The timer-loop invariant: the browser queue holds at most the one
callback recorded in `timer`, and is empty whenever the component is
paused. -/
def TimerInv (s : CState) : Prop :=
  (s.pending = [] ∨ ∃ id, s.pending = [id] ∧ s.timer = some id) ∧
  (s.playerState = PlayerState.paused → s.pending = [])

/-- A freshly mounted, paused component over a 1000 ms session. -/
def sPaused : CState := mountState PlayerState.paused SpeedState.normal 1000 false 1 false

/-- A freshly mounted, playing component over a 1000 ms session. -/
def sPlaying : CState := mountState PlayerState.playing SpeedState.normal 1000 false 1 false

/-- The paused component after the engine reported `finish`. -/
def sFinished : CState := finishEv sPaused

/-! ### Helper lemmas -/

/-! ### Field-preservation lemmas for the state operations -/

lemma stopTimer_timer (s : CState) : (stopTimer s).timer = none ∨ stopTimer s = s := by
  cases h : s.timer <;> simp [stopTimer, h]

lemma stopTimer_fields (s : CState) :
    (stopTimer s).playerState = s.playerState ∧
    (stopTimer s).speedState = s.speedState ∧
    (stopTimer s).finished = s.finished ∧
    (stopTimer s).currentTime = s.currentTime ∧
    (stopTimer s).totalTime = s.totalTime ∧
    (stopTimer s).nextId = s.nextId ∧
    (stopTimer s).calls = s.calls := by
  cases h : s.timer <;> simp [stopTimer, h]

lemma loopTimer_fields (s : CState) :
    (loopTimer s).playerState = s.playerState ∧
    (loopTimer s).speedState = s.speedState ∧
    (loopTimer s).finished = s.finished ∧
    (loopTimer s).calls = s.calls := by
  have h := stopTimer_fields s
  simp [loopTimer, h.1, h.2.1, h.2.2.1, h.2.2.2.2.2.2]

lemma emit_fields (c : EngineCall) (s : CState) :
    (emit c s).playerState = s.playerState ∧
    (emit c s).speedState = s.speedState ∧
    (emit c s).finished = s.finished ∧
    (emit c s).pending = s.pending ∧
    (emit c s).timer = s.timer ∧
    (emit c s).currentTime = s.currentTime := by
  simp [emit]

lemma timerInv_congr {s t : CState} (h : TimerInv s)
    (hp : t.pending = s.pending) (ht : t.timer = s.timer)
    (hps : t.playerState = s.playerState) : TimerInv t := by
  unfold TimerInv
  rw [hp, ht, hps]
  exact h

lemma stopTimer_pending_nil (s : CState)
    (h : s.pending = [] ∨ ∃ id, s.pending = [id] ∧ s.timer = some id) :
    (stopTimer s).pending = [] := by
  rcases h with h | ⟨id, hp, hti⟩
  · cases ht : s.timer <;> simp [stopTimer, ht, h]
  · simp [stopTimer, hti, hp]

lemma timerInv_stopTimer (s : CState) (h : TimerInv s) : TimerInv (stopTimer s) := by
  refine ⟨Or.inl (stopTimer_pending_nil s h.1), fun _ => stopTimer_pending_nil s h.1⟩

lemma timerInv_loopTimer (s : CState) (h : TimerInv s)
    (hps : s.playerState ≠ PlayerState.paused) : TimerInv (loopTimer s) := by
  have hnil := stopTimer_pending_nil s h.1
  refine ⟨Or.inr ⟨(stopTimer s).nextId, ?_, ?_⟩, ?_⟩
  · simp [loopTimer, hnil]
  · simp [loopTimer]
  · intro hpause
    exfalso
    exact hps (by rw [← (stopTimer_fields s).1]; simpa [loopTimer] using hpause)

lemma timerInv_emit (c : EngineCall) (s : CState) (h : TimerInv s) : TimerInv (emit c s) :=
  timerInv_congr h rfl rfl rfl

lemma timerInv_play (s : CState) (h : TimerInv s) : TimerInv (play s) := by
  unfold play
  split_ifs <;> exact h

lemma timerInv_pause (s : CState) (h : TimerInv s) : TimerInv (pause s) := by
  unfold pause
  split_ifs <;> exact h

lemma timerInv_toggle (s : CState) (h : TimerInv s) : TimerInv (toggle s) := by
  unfold toggle
  cases hp : s.playerState
  · exact timerInv_pause s h
  · exact timerInv_play s h
  · exact h

lemma timerInv_goto (t : ℚ) (s : CState) (h : TimerInv s) : TimerInv (goto t s) := by
  unfold goto
  dsimp only
  by_cases hp : s.playerState = PlayerState.playing
  · rw [if_pos hp]
    exact timerInv_congr h rfl rfl rfl
  · rw [if_neg hp]
    exact timerInv_congr h rfl rfl rfl

lemma timerInv_setSpeed (v : ℚ) (s : CState) (h : TimerInv s) : TimerInv (setSpeed v s) := by
  unfold setSpeed
  dsimp only
  by_cases hp : s.playerState = PlayerState.playing
  · rw [if_pos hp, if_pos hp]
    exact timerInv_congr h rfl rfl rfl
  · rw [if_neg hp, if_neg hp]
    exact timerInv_congr h rfl rfl rfl

lemma timerInv_toggleSkip (s : CState) (h : TimerInv s) : TimerInv (toggleSkipInactive s) :=
  timerInv_congr h rfl rfl rfl

lemma timerInv_afterUpdate (b : Bool) (s : CState) (h : TimerInv s) :
    TimerInv (afterUpdateStep b s) := by
  unfold afterUpdateStep
  split_ifs <;> exact h

lemma timerInv_finishEv (s : CState) (h : TimerInv s) : TimerInv (finishEv s) :=
  timerInv_congr h rfl rfl rfl

lemma timerInv_destroy (s : CState) (h : TimerInv s) : TimerInv (destroy s) :=
  timerInv_stopTimer _ (timerInv_emit _ _ h)

lemma click_getD_cases (x l w : ℚ) (s : CState) :
    (handleProgressClick x l w s).getD s = s ∨
    ∃ t, (handleProgressClick x l w s).getD s = goto t s := by
  unfold handleProgressClick
  split_ifs with h
  · exact Or.inl rfl
  · rcases hv : jsMul (JSVal.num s.totalTime)
      (if jsLt (jsDiv (JSVal.num (x - l)) (JSVal.num w)) (JSVal.num 0) then JSVal.num 0
       else if jsLt (JSVal.num 1) (jsDiv (JSVal.num (x - l)) (JSVal.num w)) then JSVal.num 1
       else jsDiv (JSVal.num (x - l)) (JSVal.num w)) with q | _ | _ | _ <;>
      simp [hv]
    exact Or.inr ⟨q, rfl⟩

lemma timerInv_click (x l w : ℚ) (s : CState) (h : TimerInv s) :
    TimerInv ((handleProgressClick x l w s).getD s) := by
  rcases click_getD_cases x l w s with hc | ⟨t, hc⟩
  · rw [hc]; exact h
  · rw [hc]; exact timerInv_goto t s h

lemma timerInv_frameFire (id : ℕ) (t : ℚ) (s : CState) (h : TimerInv s) :
    TimerInv (frameFire id t s) := by
  by_cases hm : id ∈ s.pending
  · obtain ⟨h1, h2⟩ := h
    rcases h1 with hnil | ⟨id0, hp, hti⟩
    · rw [hnil] at hm
      cases hm
    · rw [hp] at hm
      rcases List.mem_singleton.mp hm with rfl
      have hpne : s.playerState ≠ PlayerState.paused := by
        intro hc
        rw [h2 hc] at hp
        simp at hp
      by_cases hlt : t < s.totalTime
      · have he : frameFire id t s =
            { s with pending := [s.nextId], timer := some s.nextId,
                     nextId := s.nextId + 1, currentTime := t } := by
          simp [frameFire, hp, hlt]
        rw [he]
        exact ⟨Or.inr ⟨s.nextId, rfl, rfl⟩, fun hc => absurd hc hpne⟩
      · have he : frameFire id t s = { s with pending := [], currentTime := t } := by
          simp [frameFire, hp, hlt]
        rw [he]
        exact ⟨Or.inl rfl, fun _ => rfl⟩
  · have he : frameFire id t s = s := by simp [frameFire, hm]
    rw [he]
    exact h

lemma timerInv_playerPart (p : Option PlayerState) (s : CState) (h : TimerInv s) :
    TimerInv (playerPart p s) := by
  rcases p with _ | pv
  · exact h
  · unfold playerPart
    by_cases heq : s.playerState = pv
    · simp [heq]
      exact h
    · have h0 : TimerInv { s with playerState := pv } ∨ pv = PlayerState.paused := by
        by_cases hpv : pv = PlayerState.paused
        · exact Or.inr hpv
        · exact Or.inl ⟨timerInv_congr h rfl rfl rfl |>.1, fun hc => absurd (by simpa using hc) hpv⟩
      cases pv
      · rcases h0 with h0 | h0
        · simpa [heq] using timerInv_loopTimer _ h0 (by simp)
        · cases h0
      · have : TimerInv (stopTimer { s with playerState := PlayerState.paused }) := by
          refine ⟨Or.inl ?_, fun _ => ?_⟩ <;> exact stopTimer_pending_nil _ h.1
        simpa [heq] using this
      · rcases h0 with h0 | h0
        · simpa [heq] using h0
        · cases h0

lemma timerInv_speedPart (sp : Option SpeedState) (s : CState) (h : TimerInv s) :
    TimerInv (speedPart sp s) := by
  rcases sp with _ | sv
  · exact h
  · by_cases hne : s.speedState = sv
    · have he : speedPart (some sv) s = s := by simp [speedPart, hne]
      rw [he]
      exact h
    · have he : speedPart (some sv) s = { s with speedState := sv } := by simp [speedPart, hne]
      rw [he]
      exact timerInv_congr h rfl rfl rfl

lemma timerInv_stateChange (p : Option PlayerState) (sp : Option SpeedState) (s : CState)
    (h : TimerInv s) : TimerInv (stateChange p sp s) :=
  timerInv_speedPart sp _ (timerInv_playerPart p s h)

lemma timerInv_mount (ps : PlayerState) (ss : SpeedState) (total : ℚ) (ap : Bool)
    (sp : ℚ) (ski : Bool) : TimerInv (mountState ps ss total ap sp ski) :=
  ⟨Or.inl rfl, fun _ => rfl⟩

lemma timerInv_reachable (s : CState) (h : Reachable s) : TimerInv s := by
  induction h with
  | mount ps ss total ap sp ski => exact timerInv_mount ps ss total ap sp ski
  | stateChangeR p sp s hs ih => exact timerInv_stateChange p sp s ih
  | finishR s hs ih => exact timerInv_finishEv s ih
  | frameR id t s hs ih => exact timerInv_frameFire id t s ih
  | toggleR s hs ih => exact timerInv_toggle s ih
  | playR s hs ih => exact timerInv_play s ih
  | pauseR s hs ih => exact timerInv_pause s ih
  | gotoR t s hs ih => exact timerInv_goto t s ih
  | setSpeedR v s hs ih => exact timerInv_setSpeed v s ih
  | toggleSkipR s hs ih => exact timerInv_toggleSkip s ih
  | afterUpdateR b s hs ih => exact timerInv_afterUpdate b s ih
  | clickR x l w s hs hw ih => exact timerInv_click x l w s ih
  | destroyR s hs ih => exact timerInv_destroy s ih

/-! ### Preservation of the `finished` flag -/

lemma playerPart_finished (p : Option PlayerState) (s : CState) :
    (playerPart p s).finished = s.finished := by
  rcases p with _ | pv
  · rfl
  · by_cases heq : s.playerState = pv
    · simp [playerPart, heq]
    · cases pv
      · have he : playerPart (some PlayerState.playing) s =
            loopTimer { s with playerState := PlayerState.playing } := by simp [playerPart, heq]
        rw [he, (loopTimer_fields _).2.2.1]
      · have he : playerPart (some PlayerState.paused) s =
            stopTimer { s with playerState := PlayerState.paused } := by simp [playerPart, heq]
        rw [he, (stopTimer_fields _).2.2.1]
      · simp [playerPart, heq]

lemma speedPart_finished (sp : Option SpeedState) (s : CState) :
    (speedPart sp s).finished = s.finished := by
  rcases sp with _ | sv
  · rfl
  · by_cases hne : s.speedState = sv <;> simp [speedPart, hne]

lemma stateChange_finished (p : Option PlayerState) (sp : Option SpeedState) (s : CState) :
    (stateChange p sp s).finished = s.finished := by
  rw [stateChange, speedPart_finished, playerPart_finished]

lemma frameFire_finished (id : ℕ) (t : ℚ) (s : CState) :
    (frameFire id t s).finished = s.finished := by
  by_cases hm : id ∈ s.pending
  · by_cases hlt : t < s.totalTime <;> simp [frameFire, hm, hlt]
  · simp [frameFire, hm]

lemma pause_finished (s : CState) : (pause s).finished = s.finished := by
  unfold pause
  split_ifs <;> rfl

lemma play_finished_false (s : CState) (hf : s.finished = false) :
    (play s).finished = false := by
  unfold play
  split_ifs <;> simp_all [emit]

lemma toggle_finished_false (s : CState) (hf : s.finished = false) :
    (toggle s).finished = false := by
  unfold toggle
  cases s.playerState
  · rw [pause_finished]; exact hf
  · exact play_finished_false s hf
  · exact hf

lemma goto_finished (t : ℚ) (s : CState) : (goto t s).finished = s.finished := by
  unfold goto
  dsimp only
  split_ifs <;> rfl

lemma setSpeed_finished (v : ℚ) (s : CState) : (setSpeed v s).finished = s.finished := by
  unfold setSpeed
  dsimp only
  split_ifs <;> rfl

lemma afterUpdateStep_finished (b : Bool) (s : CState) :
    (afterUpdateStep b s).finished = s.finished := by
  unfold afterUpdateStep
  split_ifs <;> rfl

lemma destroy_finished (s : CState) : (destroy s).finished = s.finished := by
  rw [destroy, (stopTimer_fields _).2.2.1]
  rfl

lemma click_some_cases (x l w : ℚ) (s s2 : CState)
    (h : handleProgressClick x l w s = some s2) :
    s2 = s ∨ ∃ t, s2 = goto t s := by
  have hg := click_getD_cases x l w s
  rw [h] at hg
  simpa using hg

/-! ### Evaluation lemmas for `position` -/

lemma position_num_eq (t0 t1 tm : ℚ) (h : t1 - t0 ≠ 0) :
    position (JSVal.num t0) (JSVal.num t1) (JSVal.num tm) =
      toFixed2 (100 - (t1 - tm) / (t1 - t0) * 100) := by
  simp [position, jsSub, jsDiv, jsMul, jsToFixed2, h]

lemma position_nan (a b c : ℚ) (h1 : b - a = 0) (h2 : b - c = 0) :
    position (JSVal.num a) (JSVal.num b) (JSVal.num c) = "NaN" := by
  simp [position, jsSub, h1, h2, jsDiv, jsMul, jsToFixed2]

lemma toFixed2_zero : toFixed2 0 = "0.00" := by decide

lemma toFixed2_hundred : toFixed2 100 = "100.00" := by decide

lemma nan_append_percent : ("NaN" ++ "%" : String) = "NaN%" := rfl

lemma position_0_1000_0 :
    position (JSVal.num 0) (JSVal.num 1000) (JSVal.num 0) = "0.00" := by
  rw [position_num_eq 0 1000 0 (by norm_num)]
  have ha : (100 : ℚ) - (1000 - 0) / (1000 - 0) * 100 = 0 := by norm_num
  rw [ha, toFixed2_zero]

lemma position_0_1000_1000 :
    position (JSVal.num 0) (JSVal.num 1000) (JSVal.num 1000) = "100.00" := by
  rw [position_num_eq 0 1000 1000 (by norm_num)]
  have ha : (100 : ℚ) - (1000 - 1000) / (1000 - 0) * 100 = 100 := by norm_num
  rw [ha, toFixed2_hundred]

lemma customEvents_scenario_eval :
    customEvents
        [⟨EventType.custom, 0, "A"⟩, ⟨EventType.fullSnapshot, 500, ""⟩,
         ⟨EventType.custom, 1000, "B"⟩]
        [("A", "red")] =
      some [⟨"A", "red", "0.00%"⟩, ⟨"B", "rgb(73, 80, 246)", "100.00%"⟩] := by
  simp [customEvents, lookupTag, jsOrDefault, List.getLast,
    position_0_1000_0, position_0_1000_1000]

/-! ### The claims -/

/-- C1: for every valid offset `t` in `[0, totalDuration]`, `goto t` keeps
the mirrored `playerState` at its pre-call value, sets the local time cursor
to `t`, issues `pause` then `play(t)` on the engine and a final `pause`
exactly when the pre-call state was not `playing`; consequently, whatever
status the engine had before, after the issued calls it is playing iff the
pre-call state was `playing`. -/
theorem claim1_goto_preserves_playback (s : CState) (t : ℚ) (b : Bool)
    (_h0 : 0 ≤ t) (_h1 : t ≤ s.totalTime) :
    (goto t s).playerState = s.playerState ∧
    (goto t s).currentTime = t ∧
    (goto t s).calls = s.calls ++
      ([EngineCall.pause, EngineCall.play (some t)] ++
        (if s.playerState = PlayerState.playing then [] else [EngineCall.pause])) ∧
    (enginePlaysAfter b
        ([EngineCall.pause, EngineCall.play (some t)] ++
          (if s.playerState = PlayerState.playing then [] else [EngineCall.pause])) = true ↔
      s.playerState = PlayerState.playing) := by
  by_cases hp : s.playerState = PlayerState.playing <;>
    simp [goto, emit, enginePlaysAfter, hp]

theorem claim1_witness :
    ((0 : ℚ) ≤ 0 ∧ (0 : ℚ) ≤ sPaused.totalTime) ∧
    ((goto 0 sPaused).playerState = sPaused.playerState ∧
     (goto 0 sPaused).currentTime = 0 ∧
     (goto 0 sPaused).calls = sPaused.calls ++
       ([EngineCall.pause, EngineCall.play (some 0)] ++
         (if sPaused.playerState = PlayerState.playing then [] else [EngineCall.pause])) ∧
     (enginePlaysAfter false
         ([EngineCall.pause, EngineCall.play (some 0)] ++
           (if sPaused.playerState = PlayerState.playing then [] else [EngineCall.pause])) = true ↔
       sPaused.playerState = PlayerState.playing)) :=
  ⟨⟨by decide, by decide⟩,
    claim1_goto_preserves_playback sPaused 0 false (by decide) (by decide)⟩

/-- C2 (counterexample): on the zero-duration log with a single custom
event the code computes `0/0 = NaN` and places the marker at `"NaN%"`,
not at `"0.00%"` as claimed. -/
theorem claim2_counterexample :
    customEvents [⟨EventType.custom, 0, "A"⟩] [] =
      some [⟨"A", "rgb(73, 80, 246)", "NaN%"⟩] ∧
    ("NaN%" : String) ≠ "0.00%" := by
  constructor
  · have hpos : position (JSVal.num 0) (JSVal.num 0) (JSVal.num 0) = "NaN" :=
      position_nan 0 0 0 (by norm_num) (by norm_num)
    simp [customEvents, jsOrDefault, lookupTag, hpos]
  · decide

/-- C2 (amended): on a log all of whose events carry one common timestamp
(in particular first = last), every custom marker is placed at `"NaN%"`;
no exception is raised. -/
theorem claim2_zero_duration (events : List REvent) (tags : List (String × String)) (T : ℚ)
    (hall : ∀ e ∈ events, e.timestamp = T) (l : List CustomEvent)
    (hl : customEvents events tags = some l) :
    ∀ ce ∈ l, ce.position = "NaN%" := by
  cases events with
  | nil => simp [customEvents] at hl
  | cons e0 rest =>
    intro ce hce
    have h0 : e0.timestamp = T := hall e0 (List.mem_cons_self e0 rest)
    have hLast : ((e0 :: rest).getLast (List.cons_ne_nil e0 rest)).timestamp = T :=
      hall _ (List.getLast_mem _)
    simp only [customEvents] at hl
    rw [h0, hLast] at hl
    obtain rfl := (Option.some.inj hl).symm
    rw [List.mem_filterMap] at hce
    obtain ⟨e, he, hfe⟩ := hce
    by_cases htype : e.type = EventType.custom
    · rw [if_pos htype] at hfe
      obtain rfl := Option.some.inj hfe
      show position (JSVal.num T) (JSVal.num T) (JSVal.num e.timestamp) ++ "%" = "NaN%"
      rw [hall e he, position_nan T T T (by rw [sub_self]) (by rw [sub_self]),
        nan_append_percent]
    · rw [if_neg htype] at hfe
      cases hfe

theorem claim2_witness :
    (∀ e ∈ [REvent.mk EventType.custom 5 "X"], e.timestamp = 5) ∧
    (∀ ce ∈ [CustomEvent.mk "X" "rgb(73, 80, 246)"
        (position (JSVal.num 5) (JSVal.num 5) (JSVal.num 5) ++ "%")],
      ce.position = "NaN%") :=
  ⟨by simp,
    claim2_zero_duration [REvent.mk EventType.custom 5 "X"] [] 5 (by simp) _ rfl⟩

/-- C3: for a session running from `t0` to `t1 > t0`, a marker at
`tm ∈ [t0, t1]` is placed at `100·(tm−t0)/(t1−t0)` formatted to two
decimals (the code computes `100 − ((t1−tm)/(t1−t0))·100`, the same
quantity), with `%` appended; the boundaries give `"0.00%"` and
`"100.00%"`. -/
theorem claim3_marker_position (t0 t1 tm : ℚ) (h01 : t0 < t1)
    (_hl : t0 ≤ tm) (_hr : tm ≤ t1) :
    position (JSVal.num t0) (JSVal.num t1) (JSVal.num tm) =
      toFixed2 (100 * (tm - t0) / (t1 - t0)) ∧
    (tm = t0 →
      position (JSVal.num t0) (JSVal.num t1) (JSVal.num tm) ++ "%" = "0.00%") ∧
    (tm = t1 →
      position (JSVal.num t0) (JSVal.num t1) (JSVal.num tm) ++ "%" = "100.00%") := by
  have hne : t1 - t0 ≠ 0 := sub_ne_zero.mpr (ne_of_gt h01)
  have hmain : position (JSVal.num t0) (JSVal.num t1) (JSVal.num tm) =
      toFixed2 (100 * (tm - t0) / (t1 - t0)) := by
    rw [position_num_eq t0 t1 tm hne]
    congr 1
    field_simp
    ring
  refine ⟨hmain, fun he => ?_, fun he => ?_⟩
  · rw [hmain, he, show (100 : ℚ) * (t0 - t0) / (t1 - t0) = 0 by
      rw [sub_self, mul_zero, zero_div], toFixed2_zero]
    rfl
  · rw [hmain, he, show (100 : ℚ) * (t1 - t0) / (t1 - t0) = 100 by
      rw [mul_div_assoc, div_self hne, mul_one], toFixed2_hundred]
    rfl

theorem claim3_witness :
    ((0 : ℚ) < 1000 ∧ (0 : ℚ) ≤ 500 ∧ (500 : ℚ) ≤ 1000) ∧
    (position (JSVal.num 0) (JSVal.num 1000) (JSVal.num 500) =
      toFixed2 (100 * (500 - 0) / (1000 - 0)) ∧
     ((500 : ℚ) = 0 →
       position (JSVal.num 0) (JSVal.num 1000) (JSVal.num 500) ++ "%" = "0.00%") ∧
     ((500 : ℚ) = 1000 →
       position (JSVal.num 0) (JSVal.num 1000) (JSVal.num 500) ++ "%" = "100.00%")) :=
  ⟨⟨by decide, by decide, by decide⟩,
    claim3_marker_position 0 1000 500 (by decide) (by decide) (by decide)⟩

/-- C4: in every reachable state the animation-frame loop holds at most one
scheduled callback, no callback is scheduled while the component is paused,
and stopping an already-stopped timer changes nothing. -/
theorem claim4_timer_invariant (s : CState) (h : Reachable s) :
    s.pending.length ≤ 1 ∧
    (s.playerState = PlayerState.paused → s.pending = []) ∧
    (∀ s2 : CState, s2.timer = none → stopTimer s2 = s2) := by
  have hi := timerInv_reachable s h
  refine ⟨?_, hi.2, fun s2 h2 => by simp [stopTimer, h2]⟩
  rcases hi.1 with h1 | ⟨id, hp, _⟩
  · simp [h1]
  · simp [hp]

theorem claim4_witness :
    sPaused.pending.length ≤ 1 ∧
    (sPaused.playerState = PlayerState.paused → sPaused.pending = []) ∧
    (∀ s2 : CState, s2.timer = none → stopTimer s2 = s2) :=
  claim4_timer_invariant sPaused
    (Reachable.mount PlayerState.paused SpeedState.normal 1000 false 1 false)

/-- C5: `toggle` requests a pause when playing, requests a play when
paused, and in any other state (live) performs no engine call and changes
no local state. -/
theorem claim5_toggle (s : CState) :
    (s.playerState = PlayerState.playing → toggle s = emit EngineCall.pause s) ∧
    (s.playerState = PlayerState.paused →
      (toggle s).calls = s.calls ++
        [EngineCall.play (if s.finished then none else some s.currentTime)]) ∧
    (s.playerState = PlayerState.live → toggle s = s) := by
  refine ⟨fun h => ?_, fun h => ?_, fun h => ?_⟩
  · simp [toggle, h, pause, emit]
  · by_cases hf : s.finished <;> simp [toggle, h, play, emit, hf]
  · simp [toggle, h]

theorem claim5_witness :
    (sPlaying.playerState = PlayerState.playing →
      toggle sPlaying = emit EngineCall.pause sPlaying) ∧
    (sPlaying.playerState = PlayerState.paused →
      (toggle sPlaying).calls = sPlaying.calls ++
        [EngineCall.play (if sPlaying.finished then none else some sPlaying.currentTime)]) ∧
    (sPlaying.playerState = PlayerState.live → toggle sPlaying = sPlaying) :=
  claim5_toggle sPlaying

/-- C6: `play` is a no-op unless paused; when paused it restarts the engine
from the beginning if the `finished` flag is set, and otherwise resumes
from the stored `currentTime`. -/
theorem claim6_play_guard (s : CState) :
    (s.playerState ≠ PlayerState.paused → play s = s) ∧
    (s.playerState = PlayerState.paused → s.finished = true →
      play s = { emit (EngineCall.play none) s with finished := false }) ∧
    (s.playerState = PlayerState.paused → s.finished = false →
      play s = emit (EngineCall.play (some s.currentTime)) s) := by
  refine ⟨fun h => ?_, fun h hf => ?_, fun h hf => ?_⟩
  · simp [play, h]
  · simp [play, h, hf]
  · simp [play, h, hf]

theorem claim6_witness :
    (sFinished.playerState ≠ PlayerState.paused → play sFinished = sFinished) ∧
    (sFinished.playerState = PlayerState.paused → sFinished.finished = true →
      play sFinished = { emit (EngineCall.play none) sFinished with finished := false }) ∧
    (sFinished.playerState = PlayerState.paused → sFinished.finished = false →
      play sFinished = emit (EngineCall.play (some sFinished.currentTime)) sFinished) :=
  claim6_play_guard sFinished

/-- C7: a click on the progress track is ignored entirely while skipping;
otherwise the horizontal offset over the track width is clamped to
`[0, 1]`, multiplied by the total duration, and passed to `goto`. -/
theorem claim7_progress_click (x l w : ℚ) (s : CState) :
    (s.speedState = SpeedState.skipping → handleProgressClick x l w s = some s) ∧
    (s.speedState ≠ SpeedState.skipping → 0 < w →
      ∃ p : ℚ,
        p = (if (x - l) / w < 0 then 0
             else if 1 < (x - l) / w then 1 else (x - l) / w) ∧
        0 ≤ p ∧ p ≤ 1 ∧
        handleProgressClick x l w s = some (goto (s.totalTime * p) s)) := by
  constructor
  · intro h
    simp [handleProgressClick, h]
  · intro h hw
    have hw0 : w ≠ 0 := ne_of_gt hw
    refine ⟨(if (x - l) / w < 0 then 0
             else if 1 < (x - l) / w then 1 else (x - l) / w), rfl, ?_, ?_, ?_⟩
    · split_ifs with h1 h2
      · exact le_refl 0
      · exact zero_le_one
      · exact le_of_not_lt h1
    · split_ifs with h1 h2
      · exact zero_le_one
      · exact le_refl 1
      · exact le_of_not_lt h2
    · have hdiv : jsDiv (JSVal.num (x - l)) (JSVal.num w) = JSVal.num ((x - l) / w) := by
        simp [jsDiv, hw0]
      unfold handleProgressClick
      rw [if_neg h]
      dsimp only
      rw [hdiv]
      by_cases h1 : (x - l) / w < 0
      · simp [jsLt, jsMul, h1]
      · by_cases h2 : 1 < (x - l) / w <;> simp [jsLt, jsMul, h1, h2]

theorem claim7_witness :
    (¬ sPaused.speedState = SpeedState.skipping ∧ (0 : ℚ) < 10) ∧
    (∃ p : ℚ,
      p = (if ((5 : ℚ) - 0) / 10 < 0 then 0
           else if 1 < ((5 : ℚ) - 0) / 10 then 1 else ((5 : ℚ) - 0) / 10) ∧
      0 ≤ p ∧ p ≤ 1 ∧
      handleProgressClick 5 0 10 sPaused = some (goto (sPaused.totalTime * p) sPaused)) :=
  ⟨⟨by decide, by decide⟩,
    (claim7_progress_click 5 0 10 sPaused).2 (by decide) (by decide)⟩

/-- C8: the derived progress fraction is `min 1 (currentTime / totalTime)`
and, for a fixed positive total duration, both it and its percentage value
are monotonically non-decreasing in `currentTime`. -/
theorem claim8_percentage_monotone (T c1 c2 : ℚ) (hT : 0 < T) (h : c1 ≤ c2) :
    progressPercent c1 T = min 1 (c1 / T) ∧
    progressPercent c1 T ≤ progressPercent c2 T ∧
    100 * progressPercent c1 T ≤ 100 * progressPercent c2 T := by
  have hdiv : c1 / T ≤ c2 / T := by gcongr
  have hmin : min 1 (c1 / T) ≤ min 1 (c2 / T) := min_le_min le_rfl hdiv
  exact ⟨rfl, hmin, by unfold progressPercent; nlinarith [hmin]⟩

theorem claim8_witness :
    ((0 : ℚ) < 1000 ∧ (1 : ℚ) ≤ 2) ∧
    (progressPercent 1 1000 = min 1 ((1 : ℚ) / 1000) ∧
     progressPercent 1 1000 ≤ progressPercent 2 1000 ∧
     100 * progressPercent 1 1000 ≤ 100 * progressPercent 2 1000) :=
  ⟨⟨by decide, by decide⟩, claim8_percentage_monotone 1000 1 2 (by decide) (by decide)⟩

/-- C9 (counterexample): the claimed output writes the default color as
`"rgb(73,80,246)"`, but the source default is `"rgb(73, 80, 246)"` (with
spaces), so the computed list differs from the claimed one. -/
theorem claim9_counterexample :
    customEvents
        [⟨EventType.custom, 0, "A"⟩, ⟨EventType.fullSnapshot, 500, ""⟩,
         ⟨EventType.custom, 1000, "B"⟩]
        [("A", "red")] ≠
      some [⟨"A", "red", "0.00%"⟩, ⟨"B", "rgb(73,80,246)", "100.00%"⟩] := by
  rw [customEvents_scenario_eval]
  decide

/-- C9 (amended): the scenario log yields exactly the two markers in log
order, the first with the configured color `"red"`, the second with the
default color `"rgb(73, 80, 246)"` (with spaces, as written in the
source), at `"0.00%"` and `"100.00%"`. -/
theorem claim9_scenario :
    customEvents
        [⟨EventType.custom, 0, "A"⟩, ⟨EventType.fullSnapshot, 500, ""⟩,
         ⟨EventType.custom, 1000, "B"⟩]
        [("A", "red")] =
      some [⟨"A", "red", "0.00%"⟩, ⟨"B", "rgb(73, 80, 246)", "100.00%"⟩] :=
  customEvents_scenario_eval

/-- C10: the `finished` flag is consumed exactly once — a `play` issued
while paused with the flag set restarts from the beginning and clears the
flag, a `play` issued while paused with the flag clear resumes from the
stored `currentTime`, and no operation other than the `finish`
notification ever sets the flag. -/
theorem claim10_finished_consumed_once (s : CState) :
    (s.playerState = PlayerState.paused → s.finished = true →
      (play s).calls = s.calls ++ [EngineCall.play none] ∧ (play s).finished = false) ∧
    (s.playerState = PlayerState.paused → s.finished = false →
      (play s).calls = s.calls ++ [EngineCall.play (some s.currentTime)] ∧
      (play s).finished = false) ∧
    (s.finished = false →
      (∀ p sp, (stateChange p sp s).finished = false) ∧
      (∀ id t, (frameFire id t s).finished = false) ∧
      (toggle s).finished = false ∧
      (play s).finished = false ∧
      (pause s).finished = false ∧
      (∀ t, (goto t s).finished = false) ∧
      (∀ v, (setSpeed v s).finished = false) ∧
      (toggleSkipInactive s).finished = false ∧
      (∀ b, (afterUpdateStep b s).finished = false) ∧
      (∀ x l w s2, handleProgressClick x l w s = some s2 → s2.finished = false) ∧
      (destroy s).finished = false) := by
  refine ⟨fun h hf => ?_, fun h hf => ?_, fun hf => ?_⟩
  · constructor <;> simp [play, h, hf, emit]
  · constructor <;> simp [play, h, hf, emit]
  · refine ⟨fun p sp => ?_, fun id t => ?_, ?_, ?_, ?_, fun t => ?_, fun v => ?_, ?_,
      fun b => ?_, fun x l w s2 hc => ?_, ?_⟩
    · rw [stateChange_finished]; exact hf
    · rw [frameFire_finished]; exact hf
    · exact toggle_finished_false s hf
    · exact play_finished_false s hf
    · rw [pause_finished]; exact hf
    · rw [goto_finished]; exact hf
    · rw [setSpeed_finished]; exact hf
    · exact hf
    · rw [afterUpdateStep_finished]; exact hf
    · rcases click_some_cases x l w s s2 hc with rfl | ⟨t, rfl⟩
      · exact hf
      · rw [goto_finished]; exact hf
    · rw [destroy_finished]; exact hf

theorem claim10_witness :
    (sFinished.playerState = PlayerState.paused ∧ sFinished.finished = true) ∧
    ((play sFinished).calls = sFinished.calls ++ [EngineCall.play none] ∧
     (play sFinished).finished = false) :=
  ⟨⟨by decide, by decide⟩,
    (claim10_finished_consumed_once sFinished).1 (by decide) (by decide)⟩

end Controller
